import Mathlib

/-!
Verification of the SafetyHalo decision-and-alerting pipeline.

The development shallowly embeds `src/types.ts` (data model), the Gemini
service boundary `analyzeSafetyContext`, and the two dashboard variants in
`src/App.tsx` (variant A: gated pipeline with log cap 50 and an alerts-enabled
flag; variant B: ungated pipeline with log cap 10).  Numeric sensor and
confidence values are rationals; enum-typed fields that are plain strings at
runtime are modelled as `String`.  Wall-clock timestamps and the random draw
feeding the generated confidence are taken as parameters.
-/

/-- Sensor snapshot (`src/types.ts`, `SensorData`). -/
structure SensorData where
  motion_events_last_15min : ℚ
  avg_temperature_c : ℚ
  avg_humidity : ℚ
  gas_level : ℚ
  smoke_level : ℚ
  noise_level : ℚ
  door_open : Bool
  deriving DecidableEq

/-- Room context assembled once per evaluation cycle (`src/types.ts`,
`RoomContext`).  `ml_state` is the runtime string value of the `MLState`
enum. -/
structure RoomContext where
  room_id : String
  time : String
  ml_state : String
  ml_confidence : ℚ
  sensors : SensorData
  expected_occupancy : String
  notes : String
  deriving DecidableEq

/-- Safety report (`src/types.ts`, `GeminiSafetyReport`).  `status` is the
runtime string: the TypeScript cast `data.status as SafetyStatus` does not
restrict it to the three enum values. -/
structure GeminiSafetyReport where
  status : String
  summary : String
  actions_for_user : List String
  actions_for_warden : List String
  deriving DecidableEq

/-- Event-log row (`src/types.ts`, `LogEntry`). -/
structure LogEntry where
  timestamp : String
  status : String
  ml_state : String
  sensor_summary : String
  deriving DecidableEq

/-- Parsed JSON body of an oracle response: any subset of the four fields may
be absent (`undefined`), matching `JSON.parse(response.text || "\x7b\x7d")` in
`src/services/geminiService.ts`. -/
structure OracleJson where
  status : Option String
  summary : Option String
  actions_for_user : Option (List String)
  actions_for_warden : Option (List String)
  deriving DecidableEq

/-- Outcome of the underlying Gemini call as seen inside the `try` block of
`analyzeSafetyContext`: either some raised error (transport failure, timeout,
unparseable text) or a parsed JSON object. -/
inductive OracleResult where
  | failure : OracleResult
  | parsed : OracleJson → OracleResult
  deriving DecidableEq

/-- JavaScript `x || d` for an optional string field: a missing field and the
empty string are falsy and are replaced by the default. -/
def orElseStr (x : Option String) (d : String) : String :=
  match x with
  | none => d
  | some s => if s = "" then d else s

/-- The fixed fallback report returned by the `catch` branch of
`analyzeSafetyContext` (`src/services/geminiService.ts`). -/
def fallbackReport : GeminiSafetyReport :=
  { status := "SAFE"
    summary := "Communication error with AI. Falling back to local heuristics."
    actions_for_user := ["Check sensors manually."]
    actions_for_warden := ["None needed."] }

/-- The oracle boundary (`src/services/geminiService.ts`,
`analyzeSafetyContext`): every failure becomes the fixed fallback report, and
present fields of a parsed response are taken as-is with JavaScript `||`
defaults for the missing ones.  An array-valued field that is present is
always truthy in JavaScript, so only an absent array is defaulted. -/
def analyzeSafetyContext : OracleResult → GeminiSafetyReport
  | .failure => fallbackReport
  | .parsed d =>
    { status := orElseStr d.status "SAFE"
      summary := orElseStr d.summary "No analysis available."
      actions_for_user := d.actions_for_user.getD []
      actions_for_warden := d.actions_for_warden.getD ["None needed."] }

/-- JavaScript `Number.prototype.toFixed(0)` on a rational: round to the
nearest integer, ties away from zero. -/
def jsToFixed0 (q : ℚ) : Int :=
  if 0 ≤ q then ⌊q + 1/2⌋ else -⌊-q + 1/2⌋

/-- `toFixed(0)` rendered as a string. -/
def fmt0 (q : ℚ) : String := toString (jsToFixed0 q)

/-- `toFixed(1)` rendered as a string (one decimal digit). -/
def fmt1 (q : ℚ) : String :=
  let n := jsToFixed0 (q * 10)
  let m := n.natAbs
  (if n < 0 then "-" else "") ++ toString (m / 10) ++ "." ++ toString (m % 10)

/-- Does `p :: ps` occur at the head of the second list? -/
def startsWithL : List Char → List Char → Bool
  | [], _ => true
  | _ :: _, [] => false
  | p :: ps, c :: cs => p = c && startsWithL ps cs

/-- Does the pattern occur anywhere in the list? -/
def containsL (pat : List Char) : List Char → Bool
  | [] => pat.isEmpty
  | c :: cs => startsWithL pat (c :: cs) || containsL pat cs

/-- Substring test used to state what a summary mentions. -/
def containsSub (s pat : String) : Bool := containsL pat.toList s.toList

/-- One scheduled tone: frequency (Hz), duration (s), start offset (s) from
the audio context's current time. -/
structure Beep where
  freq : ℚ
  duration : ℚ
  start : ℚ
  deriving DecidableEq

/-- Variant A alert dispatch (`src/App.tsx` lines 140-167, `playAlertSound`):
no-op when alerts are disabled; DANGER schedules three 880 Hz square beeps of
0.2 s spaced 0.25 s apart; WARNING one 440 Hz beep of 0.4 s; anything else is
silent. -/
def playAlertSoundA (alertsEnabled : Bool) (status : String) : List Beep :=
  if !alertsEnabled then []
  else if status = "DANGER" then
    (List.range 3).map (fun i => ⟨880, 1/5, (i : ℚ) * (1/4)⟩)
  else if status = "WARNING" then [⟨440, 2/5, 0⟩]
  else []

/-- Variant B alert dispatch (`src/App.tsx` lines 558-584): no alerts-enabled
flag exists in this variant; DANGER schedules four 900 Hz sine beeps of 0.15 s
spaced 0.2 s apart; WARNING one 440 Hz beep of 0.5 s. -/
def playAlertSoundB (status : String) : List Beep :=
  if status = "DANGER" then
    (List.range 4).map (fun i => ⟨900, 3/20, (i : ℚ) * (1/5)⟩)
  else if status = "WARNING" then [⟨440, 1/2, 0⟩]
  else []

/-- Log-store capacity of variant A: `.slice(0, 50)` in `runAnalysis`. -/
def LOG_CAP_A : Nat := 50

/-- Log-store capacity of variant B: `.slice(0, 10)` in `runAnalysis`. -/
def LOG_CAP_B : Nat := 10

/-- `[newLog, ...prev].slice(0, cap)`: insert at the front and keep the first
`cap` entries. -/
def appendLog (cap : Nat) (e : LogEntry) (prev : List LogEntry) : List LogEntry :=
  (e :: prev).take cap

/-- Compact sensor summary of variant A log rows (`src/App.tsx` line 197). -/
def sensorSummaryA (s : SensorData) : String :=
  "T: " ++ fmt1 s.avg_temperature_c ++ "°C | G: " ++ fmt0 (s.gas_level * 100) ++
    "% | N: " ++ fmt0 (s.noise_level * 100) ++ "%"

/-- Compact sensor summary of variant B log rows (`src/App.tsx` line 614). -/
def sensorSummaryB (s : SensorData) : String :=
  "T:" ++ fmt1 s.avg_temperature_c ++ " G:" ++ fmt0 (s.gas_level * 100)

/-- Log entry built by variant A `runAnalysis`; the wall-clock timestamp is a
parameter. -/
def mkLogEntryA (ts : String) (st : String) (ctx : RoomContext) : LogEntry :=
  ⟨ts, st, ctx.ml_state, sensorSummaryA ctx.sensors⟩

/-- Log entry built by variant B `runAnalysis`. -/
def mkLogEntryB (ts : String) (st : String) (ctx : RoomContext) : LogEntry :=
  ⟨ts, st, ctx.ml_state, sensorSummaryB ctx.sensors⟩

/-- Observable outcome of one evaluation cycle: the report shown, the beeps
scheduled, the log list after the cycle, and how many times
`analyzeSafetyContext` was invoked. -/
structure CycleResult where
  report : GeminiSafetyReport
  beeps : List Beep
  logs : List LogEntry
  oracleCalls : Nat
  deriving DecidableEq

/-- Variant A `runAnalysis` (`src/App.tsx` lines 184-206): invoke the oracle
boundary once, beep only for WARNING or DANGER, prepend a log entry and cap
the log at 50. -/
def runAnalysisA (o : OracleResult) (ctx : RoomContext) (alertsEnabled : Bool)
    (ts : String) (prev : List LogEntry) : CycleResult :=
  let report := analyzeSafetyContext o
  { report := report
    beeps :=
      if report.status = "WARNING" || report.status = "DANGER" then
        playAlertSoundA alertsEnabled report.status
      else []
    logs := appendLog LOG_CAP_A (mkLogEntryA ts report.status ctx) prev
    oracleCalls := 1 }

/-- Variant B `runAnalysis` (`src/App.tsx` lines 601-623): invoke the oracle
boundary once, beep whenever the status is not SAFE, prepend a log entry and
cap the log at 10. -/
def runAnalysisB (o : OracleResult) (ctx : RoomContext)
    (ts : String) (prev : List LogEntry) : CycleResult :=
  let report := analyzeSafetyContext o
  { report := report
    beeps := if report.status = "SAFE" then [] else playAlertSoundB report.status
    logs := appendLog LOG_CAP_B (mkLogEntryB ts report.status ctx) prev
    oracleCalls := 1 }

/-- Scenario record (`src/App.tsx`, `SCENARIOS` tables): classifier state,
sensor snapshot and notes fed into the context. -/
structure ScenarioDef where
  ml_state : String
  sensors : SensorData
  notes : String
  deriving DecidableEq

/-- Variant A baseline sensors (`src/App.tsx` lines 56-64). -/
def INITIAL_SENSORS_A : SensorData :=
  ⟨42, 49/2, 45, 3/25, 1/20, 1/5, false⟩

/-- Variant A NORMAL scenario (`src/App.tsx` lines 67-71). -/
def SCENARIO_NORMAL_A : ScenarioDef :=
  ⟨"NORMAL", INITIAL_SENSORS_A, "Regular activity detected."⟩

/-- Default confidence threshold loaded when no settings are stored
(`src/App.tsx` lines 116-121). -/
def DEFAULT_THRESHOLD : ℚ := 3/4

/-- Variant A generated confidence: `0.65 + Math.random() * 0.35` with the
random draw as a parameter. -/
def genConfA (rand : ℚ) : ℚ := 13/20 + rand * (7/20)

/-- Variant B generated confidence: `0.85 + Math.random() * 0.14`. -/
def genConfB (rand : ℚ) : ℚ := 17/20 + rand * (7/50)

/-- Summary of the SAFE report synthesized when the confidence gate blocks
escalation (`src/App.tsx` line 231). -/
def gateSkipSummary (conf : ℚ) : String :=
  "ML Confidence (" ++ fmt0 (conf * 100) ++ "%) below gate threshold. AI check skipped."

/-- The gate-skip report synthesized by variant A `triggerScenario`
(`src/App.tsx` lines 229-234). -/
def gateSkipReport (conf : ℚ) : GeminiSafetyReport :=
  { status := "SAFE"
    summary := gateSkipSummary conf
    actions_for_user := ["Manual sensor check recommended."]
    actions_for_warden := ["Monitor logs."] }

/-- Variant A `triggerScenario` (`src/App.tsx` lines 208-236): build the
context, then either run the analysis (confidence at or above the threshold)
or synthesize the gate-skip report without touching the oracle or the log. -/
def triggerScenarioA (sc : ScenarioDef) (rand thr : ℚ) (o : OracleResult)
    (alertsEnabled : Bool) (tsIso tsLocale : String) (prev : List LogEntry) :
    CycleResult :=
  let conf := genConfA rand
  let ctx : RoomContext :=
    ⟨"HOSTEL_A_204", tsIso, sc.ml_state, conf, sc.sensors, "occupied_at_night", sc.notes⟩
  if thr ≤ conf then runAnalysisA o ctx alertsEnabled tsLocale prev
  else
    { report := gateSkipReport conf
      beeps := []
      logs := prev
      oracleCalls := 0 }

/-- Variant B `triggerScenario` (`src/App.tsx` lines 625-642): no gate exists;
the analysis always runs. -/
def triggerScenarioB (sc : ScenarioDef) (rand : ℚ) (o : OracleResult)
    (tsIso tsLocale : String) (prev : List LogEntry) : CycleResult :=
  let conf := genConfB rand
  let ctx : RoomContext :=
    ⟨"WEST_WING_B4", tsIso, sc.ml_state, conf, sc.sensors, "occupied", sc.notes⟩
  runAnalysisB o ctx tsLocale prev

/-- Trend chart point (the object literal appended in the history interval of
`src/App.tsx`). -/
structure TrendPoint where
  time : String
  temp : ℚ
  gas : ℚ
  noise : ℚ
  deriving DecidableEq

/-- JavaScript `Array.prototype.slice(-n)`: keep the last `n` elements. -/
def sliceLast (n : Nat) (l : List TrendPoint) : List TrendPoint :=
  l.drop (l.length - n)

/-- Period of the trend-buffer timer in milliseconds (`setInterval(..., 3000)`). -/
def TREND_INTERVAL_MS : Nat := 3000

/-- Point sampled by the variant A trend tick: current sensors with
per-channel jitter (random draws `r1 r2 r3` as parameters). -/
def trendPointA (label : String) (s : SensorData) (r1 r2 r3 : ℚ) : TrendPoint :=
  ⟨label, s.avg_temperature_c + (r1 - 1/2), s.gas_level + r2 * (1/50),
    s.noise_level + r3 * (1/10)⟩

/-- Point sampled by the variant B trend tick (percent-scaled jitter). -/
def trendPointB (label : String) (s : SensorData) (r1 r2 r3 : ℚ) : TrendPoint :=
  ⟨label, s.avg_temperature_c + (r1 - 1/2), s.gas_level * 100 + r2 * 5,
    s.noise_level * 100 + r3 * 10⟩

/-- Variant A trend tick (`src/App.tsx` lines 169-182): append the sampled
point and keep the last 20. -/
def appendTrendA (prev : List TrendPoint) (label : String) (s : SensorData)
    (r1 r2 r3 : ℚ) : List TrendPoint :=
  sliceLast 20 (prev ++ [trendPointA label s r1 r2 r3])

/-- Variant B trend tick (`src/App.tsx` lines 586-599). -/
def appendTrendB (prev : List TrendPoint) (label : String) (s : SensorData)
    (r1 r2 r3 : ℚ) : List TrendPoint :=
  sliceLast 20 (prev ++ [trendPointB label s r1 r2 r3])

/-- Modelled from the spec: `exportLog` is described in the spec's external
interface section but no CSV export exists under `src/`.  CSV escaping of one
field body: every internal double quote is doubled. -/
def escField : List Char → List Char
  | [] => []
  | c :: cs => if c = '"' then '"' :: '"' :: escField cs else c :: escField cs

/-- Modelled from the spec: a CSV field is the escaped body wrapped in double
quotes. -/
def fieldChars (s : String) : List Char :=
  '"' :: (escField s.toList ++ ['"'])

/-- Modelled from the spec: a CSV row joins its fields with commas. -/
def rowChars : List String → List Char
  | [] => []
  | [f] => fieldChars f
  | f :: f2 :: fs => fieldChars f ++ ',' :: rowChars (f2 :: fs)

/-- Modelled from the spec: a CSV file joins its rows with newlines. -/
def csvChars : List (List String) → List Char
  | [] => []
  | [r] => rowChars r
  | r :: r2 :: rs => rowChars r ++ '\n' :: csvChars (r2 :: rs)

/-- Modelled from the spec: the CSV column headers Timestamp, ML State,
AI Assessment, Sensor Snapshot. -/
def headerFields : List String :=
  ["Timestamp", "ML State", "AI Assessment", "Sensor Snapshot"]

/-- Modelled from the spec: one CSV data row per `LogEntry`, in header
order (AI Assessment is the report status, Sensor Snapshot the compact
sensor summary). -/
def entryFields (e : LogEntry) : List String :=
  [e.timestamp, e.ml_state, e.status, e.sensor_summary]

/-- Modelled from the spec: `exportLog()` renders the header row followed by
one double-quoted, comma-separated row per stored `LogEntry`, newest first. -/
def exportLog (logs : List LogEntry) : String :=
  String.mk (csvChars (headerFields :: logs.map entryFields))

/-- Parser state for quoted CSV: expecting an opening quote, inside a quoted
field, or just past a closing-candidate quote. -/
inductive CsvState where
  | expectQ : CsvState
  | inF : CsvState
  | justClosed : CsvState
  deriving DecidableEq

/-- Character-level scanner for the quoted-CSV grammar the exporter emits:
`cur` is the field in progress, `flds` the finished fields of the current row,
`rows` the finished rows.  A doubled quote inside a field is an escaped quote;
a quote followed by a comma or newline closes the field. -/
def csvScanAux : List Char → CsvState → List Char → List (List Char) →
    List (List (List Char)) → Option (List (List (List Char)))
  | [], .justClosed, cur, flds, rows => some (rows ++ [flds ++ [cur]])
  | [], .expectQ, _, _, _ => none
  | [], .inF, _, _, _ => none
  | c :: cs, .expectQ, cur, flds, rows =>
    if c = '"' then csvScanAux cs .inF cur flds rows else none
  | c :: cs, .inF, cur, flds, rows =>
    if c = '"' then csvScanAux cs .justClosed cur flds rows
    else csvScanAux cs .inF (cur ++ [c]) flds rows
  | c :: cs, .justClosed, cur, flds, rows =>
    if c = '"' then csvScanAux cs .inF (cur ++ [c]) flds rows
    else if c = ',' then csvScanAux cs .expectQ [] (flds ++ [cur]) rows
    else if c = '\n' then csvScanAux cs .expectQ [] [] (rows ++ [flds ++ [cur]])
    else none

/-- Parse CSV text back into rows of fields (used to state the round-trip
property). -/
def parseCsv (s : String) : Option (List (List String)) :=
  (csvScanAux s.toList .expectQ [] [] []).map (fun rows =>
    rows.map (fun flds => flds.map (fun cs => String.mk cs)))

/-! ## Helper lemmas -/

theorem head?_take_cons {α : Type} (n : Nat) (e : α) (l : List α) :
    ((e :: l).take (n + 1)).head? = some e := by
  simp [List.take_succ_cons]

/-! ## Claims -/

/-- Claim C2: every oracle failure is caught at the boundary and becomes the
fixed fallback report — status SAFE, the fixed communication-error summary,
one "check sensors manually" user action, a "None needed." warden list — the
cycle still completes without a beep, and in both variants a log entry for
the cycle is still prepended. -/
theorem oracle_failure_fallback (ctx : RoomContext) (en : Bool) (ts : String)
    (prev : List LogEntry) :
    (runAnalysisA .failure ctx en ts prev).report = fallbackReport ∧
    fallbackReport.status = "SAFE" ∧
    fallbackReport.summary =
      "Communication error with AI. Falling back to local heuristics." ∧
    fallbackReport.actions_for_user = ["Check sensors manually."] ∧
    fallbackReport.actions_for_warden = ["None needed."] ∧
    (runAnalysisA .failure ctx en ts prev).beeps = [] ∧
    (runAnalysisA .failure ctx en ts prev).logs.head? =
      some (mkLogEntryA ts "SAFE" ctx) ∧
    (runAnalysisA .failure ctx en ts prev).logs.length =
      min LOG_CAP_A (prev.length + 1) ∧
    (runAnalysisB .failure ctx ts prev).report = fallbackReport ∧
    (runAnalysisB .failure ctx ts prev).beeps = [] ∧
    (runAnalysisB .failure ctx ts prev).logs.head? =
      some (mkLogEntryB ts "SAFE" ctx) ∧
    (runAnalysisB .failure ctx ts prev).logs.length =
      min LOG_CAP_B (prev.length + 1) := by
  refine ⟨rfl, rfl, rfl, rfl, rfl, rfl, ?_, ?_, rfl, rfl, ?_, ?_⟩
  · exact head?_take_cons 49 _ _
  · simp [runAnalysisA, appendLog, analyzeSafetyContext, List.length_take]
  · exact head?_take_cons 9 _ _
  · simp [runAnalysisB, appendLog, analyzeSafetyContext, List.length_take]

/-- Claim C4: fields absent from a parsed oracle response are filled with safe
defaults instead of failing — a missing status becomes SAFE, missing warden
actions become the one-element "None needed." list (and a missing summary or
user-action list also get their defaults). -/
theorem missing_fields_safe_defaults (d : OracleJson) :
    (d.status = none → (analyzeSafetyContext (.parsed d)).status = "SAFE") ∧
    (d.actions_for_warden = none →
      (analyzeSafetyContext (.parsed d)).actions_for_warden = ["None needed."]) ∧
    (d.summary = none →
      (analyzeSafetyContext (.parsed d)).summary = "No analysis available.") ∧
    (d.actions_for_user = none →
      (analyzeSafetyContext (.parsed d)).actions_for_user = []) := by
  refine ⟨fun h => ?_, fun h => ?_, fun h => ?_, fun h => ?_⟩ <;>
    simp [analyzeSafetyContext, orElseStr, h]

/-- Witness for C4 at the all-absent response. -/
theorem missing_fields_safe_defaults_witness :
    (analyzeSafetyContext (.parsed ⟨none, none, none, none⟩)).status = "SAFE" ∧
    (analyzeSafetyContext (.parsed ⟨none, none, none, none⟩)).actions_for_warden =
      ["None needed."] :=
  ⟨(missing_fields_safe_defaults ⟨none, none, none, none⟩).1 rfl,
   (missing_fields_safe_defaults ⟨none, none, none, none⟩).2.1 rfl⟩

/-- Claim C10: any non-empty status string in the oracle response is passed
through unchanged — the report's status field is not restricted to the three
enumerated values; only a missing or empty status is replaced by SAFE. -/
theorem status_passthrough (d : OracleJson) (s : String)
    (h1 : d.status = some s) (h2 : s ≠ "") :
    (analyzeSafetyContext (.parsed d)).status = s := by
  simp [analyzeSafetyContext, orElseStr, h1, h2]

/-- Witness for C10: an unrecognized status survives verbatim. -/
theorem status_passthrough_witness :
    (analyzeSafetyContext (.parsed ⟨some "ELEVATED", none, none, none⟩)).status =
      "ELEVATED" ∧
    ("ELEVATED" ≠ "SAFE" ∧ "ELEVATED" ≠ "WARNING" ∧ "ELEVATED" ≠ "DANGER") :=
  ⟨status_passthrough ⟨some "ELEVATED", none, none, none⟩ "ELEVATED" rfl
    (by decide), by decide⟩

/-- Claim C3: the log store never exceeds its capacity; a new entry goes to
the front, the entry at the back is evicted once the cap would be exceeded,
the stored order stays newest-first, and both variants' caps (50 and 10) lie
in the 10-100 range the claim allows. -/
theorem log_store_bounded_fifo (cap : Nat) (e : LogEntry) (prev : List LogEntry)
    (hcap : 1 ≤ cap) (hlen : prev.length ≤ cap) :
    (appendLog cap e prev).length ≤ cap ∧
    (appendLog cap e prev).head? = some e ∧
    (prev.length < cap → appendLog cap e prev = e :: prev) ∧
    (prev.length = cap → appendLog cap e prev = e :: prev.dropLast) ∧
    (10 ≤ LOG_CAP_A ∧ LOG_CAP_A ≤ 100 ∧ 10 ≤ LOG_CAP_B ∧ LOG_CAP_B ≤ 100) := by
  refine ⟨?_, ?_, fun h => ?_, fun h => ?_, by decide⟩
  · simp only [appendLog, List.length_take]
    omega
  · cases cap with
    | zero => omega
    | succ k => exact head?_take_cons k e prev
  · rw [appendLog, List.take_of_length_le (by simp; omega)]
  · cases cap with
    | zero => omega
    | succ k =>
      rw [appendLog, List.take_succ_cons]
      have hk : prev.length - 1 = k := by omega
      rw [List.dropLast_eq_take, hk]

/-- Witness for C3 at capacity 50 on the empty log. -/
theorem log_store_bounded_fifo_witness :
    (appendLog 50 ⟨"t", "SAFE", "NORMAL", "s"⟩ []).length ≤ 50 ∧
    (appendLog 50 ⟨"t", "SAFE", "NORMAL", "s"⟩ []).head? =
      some ⟨"t", "SAFE", "NORMAL", "s"⟩ :=
  ⟨(log_store_bounded_fifo 50 ⟨"t", "SAFE", "NORMAL", "s"⟩ [] (by decide)
      (by decide)).1,
   (log_store_bounded_fifo 50 ⟨"t", "SAFE", "NORMAL", "s"⟩ [] (by decide)
      (by decide)).2.1⟩

/-- Claim C7: the trend buffer never holds more than 20 points; the point
sampled from the current sensors (with per-channel jitter) is appended at the
back, below the cap nothing is evicted, and at the cap the oldest (front)
point is evicted, in both variants; the sampling timer period is 3000 ms. -/
theorem trend_buffer_bounded (prev : List TrendPoint) (label : String)
    (s : SensorData) (r1 r2 r3 : ℚ) (h : prev.length ≤ 20) :
    (appendTrendA prev label s r1 r2 r3).length ≤ 20 ∧
    (appendTrendB prev label s r1 r2 r3).length ≤ 20 ∧
    (prev.length < 20 →
      appendTrendA prev label s r1 r2 r3 = prev ++ [trendPointA label s r1 r2 r3]) ∧
    (prev.length = 20 →
      appendTrendA prev label s r1 r2 r3 =
        prev.tail ++ [trendPointA label s r1 r2 r3]) ∧
    (prev.length = 20 →
      appendTrendB prev label s r1 r2 r3 =
        prev.tail ++ [trendPointB label s r1 r2 r3]) ∧
    TREND_INTERVAL_MS = 3000 := by
  refine ⟨?_, ?_, fun hlt => ?_, fun he => ?_, fun he => ?_, rfl⟩
  · simp [appendTrendA, sliceLast]
    omega
  · simp [appendTrendB, sliceLast]
    omega
  · have h0 : (prev ++ [trendPointA label s r1 r2 r3]).length - 20 = 0 := by
      simp
      omega
    rw [appendTrendA, sliceLast, h0, List.drop_zero]
  · have h1 : (prev ++ [trendPointA label s r1 r2 r3]).length - 20 = 1 := by
      simp [he]
    rw [appendTrendA, sliceLast, h1,
      List.drop_append_of_le_length (by omega), List.drop_one]
  · have h1 : (prev ++ [trendPointB label s r1 r2 r3]).length - 20 = 1 := by
      simp [he]
    rw [appendTrendB, sliceLast, h1,
      List.drop_append_of_le_length (by omega), List.drop_one]

/-- Witness for C7 on the empty buffer. -/
theorem trend_buffer_bounded_witness :
    (appendTrendA [] "t" INITIAL_SENSORS_A 0 0 0).length ≤ 20 ∧
    (appendTrendB [] "t" INITIAL_SENSORS_A 0 0 0).length ≤ 20 ∧
    appendTrendA [] "t" INITIAL_SENSORS_A 0 0 0 =
      [trendPointA "t" INITIAL_SENSORS_A 0 0 0] := by
  have h := trend_buffer_bounded [] "t" INITIAL_SENSORS_A 0 0 0 (by decide)
  exact ⟨h.1, h.2.1, h.2.2.1 (by decide)⟩

/-- Claim C8: the alert dispatch maps DANGER to a burst of 3 (variant A) or
4 (variant B) tones in the 850-900 Hz band, each 0.15-0.2 s, spaced 0.2-0.25 s
apart; WARNING to a single 440 Hz tone of 0.4-0.5 s; SAFE to no sound; and a
disabled alerts flag (variant A, the only variant with the flag) makes
dispatch a no-op. -/
theorem alert_patterns :
    (∀ st, playAlertSoundA false st = []) ∧
    playAlertSoundA true "SAFE" = [] ∧
    ((playAlertSoundA true "DANGER").length = 3 ∧
      (∀ b ∈ playAlertSoundA true "DANGER",
        850 ≤ b.freq ∧ b.freq ≤ 900 ∧ 3/20 ≤ b.duration ∧ b.duration ≤ 1/5) ∧
      (playAlertSoundA true "DANGER").map Beep.start = [0, 1/4, 1/2]) ∧
    ((playAlertSoundA true "WARNING").length = 1 ∧
      ∀ b ∈ playAlertSoundA true "WARNING",
        b.freq = 440 ∧ 2/5 ≤ b.duration ∧ b.duration ≤ 1/2) ∧
    playAlertSoundB "SAFE" = [] ∧
    ((playAlertSoundB "DANGER").length = 4 ∧
      (∀ b ∈ playAlertSoundB "DANGER",
        850 ≤ b.freq ∧ b.freq ≤ 900 ∧ 3/20 ≤ b.duration ∧ b.duration ≤ 1/5) ∧
      (playAlertSoundB "DANGER").map Beep.start = [0, 1/5, 2/5, 3/5]) ∧
    ((playAlertSoundB "WARNING").length = 1 ∧
      ∀ b ∈ playAlertSoundB "WARNING",
        b.freq = 440 ∧ 2/5 ≤ b.duration ∧ b.duration ≤ 1/2) := by
  refine ⟨fun st => by simp [playAlertSoundA], by simp [playAlertSoundA],
    ⟨by simp [playAlertSoundA, List.range_succ], ?_, ?_⟩,
    ⟨by simp [playAlertSoundA], ?_⟩, by simp [playAlertSoundB],
    ⟨by simp [playAlertSoundB, List.range_succ], ?_, ?_⟩,
    ⟨by simp [playAlertSoundB], ?_⟩⟩
  · intro b hb
    simp [playAlertSoundA, List.range_succ] at hb
    rcases hb with h | h | h <;> subst h <;> norm_num
  · simp [playAlertSoundA, List.range_succ]
    norm_num
  · intro b hb
    simp [playAlertSoundA] at hb
    subst hb
    norm_num
  · intro b hb
    simp [playAlertSoundB, List.range_succ] at hb
    rcases hb with h | h | h | h <;> subst h <;> norm_num
  · simp [playAlertSoundB, List.range_succ]
    norm_num
  · intro b hb
    simp [playAlertSoundB] at hb
    subst hb
    norm_num

theorem startsWithL_self_append (b c : List Char) :
    startsWithL b (b ++ c) = true := by
  induction b with
  | nil => simp [startsWithL]
  | cons x xs ih => simp [startsWithL, ih]

theorem containsL_middle (a b c : List Char) :
    containsL b (a ++ (b ++ c)) = true := by
  induction a with
  | nil =>
    cases hbc : b ++ c with
    | nil =>
      have hb : b = [] := by
        cases b with
        | nil => rfl
        | cons x xs => simp at hbc
      subst hb
      simp [containsL]
    | cons x xs =>
      simp only [List.nil_append, hbc, containsL]
      rw [← hbc, startsWithL_self_append]
      simp
  | cons x a' ih =>
    simp only [List.cons_append, containsL, List.append_eq, ih, Bool.or_true]

theorem containsSub_of_decomp (a b c : String) :
    containsSub (a ++ (b ++ c)) b = true := by
  simp only [containsSub, String.toList, String.data_append]
  exact containsL_middle a.data b.data c.data

/-- Claim C1: in the gated variant a cycle whose generated confidence is
strictly below the threshold never invokes the oracle and yields the SAFE
gate-skip report, while a cycle at or above the threshold invokes the oracle
exactly once; the ungated variant always invokes the oracle exactly once, and
its generated confidence (0.85 + rand * 0.14 with rand >= 0) can never fall
below the default threshold 0.75, so no gate-blocked cycle exists there. -/
theorem confidence_gate_controls_oracle :
    (∀ (sc : ScenarioDef) (rand thr : ℚ) (o : OracleResult) (en : Bool)
      (t1 t2 : String) (prev : List LogEntry),
      (genConfA rand < thr →
        (triggerScenarioA sc rand thr o en t1 t2 prev).oracleCalls = 0 ∧
        (triggerScenarioA sc rand thr o en t1 t2 prev).report =
          gateSkipReport (genConfA rand) ∧
        (gateSkipReport (genConfA rand)).status = "SAFE" ∧
        (gateSkipReport (genConfA rand)).summary =
          gateSkipSummary (genConfA rand)) ∧
      (thr ≤ genConfA rand →
        (triggerScenarioA sc rand thr o en t1 t2 prev).oracleCalls = 1)) ∧
    (∀ (sc : ScenarioDef) (rand : ℚ) (o : OracleResult) (t1 t2 : String)
      (prev : List LogEntry),
      (triggerScenarioB sc rand o t1 t2 prev).oracleCalls = 1 ∧
      (0 ≤ rand → DEFAULT_THRESHOLD ≤ genConfB rand)) := by
  constructor
  · intro sc rand thr o en t1 t2 prev
    constructor
    · intro h
      have hn : ¬ thr ≤ genConfA rand := not_le.mpr h
      simp only [triggerScenarioA]
      rw [if_neg hn]
      exact ⟨rfl, rfl, rfl, rfl⟩
    · intro h
      simp only [triggerScenarioA]
      rw [if_pos h]
      rfl
  · intro sc rand o t1 t2 prev
    refine ⟨rfl, fun hr => ?_⟩
    have h1 : (0:ℚ) ≤ rand * (7/50) := mul_nonneg hr (by norm_num)
    simp only [genConfB, DEFAULT_THRESHOLD]
    linarith

/-- Witness for C1: a blocked cycle (confidence 0.65, threshold 0.75) makes
zero oracle calls; an escalated one (confidence 0.825) and every ungated
cycle make exactly one. -/
theorem confidence_gate_controls_oracle_witness :
    (genConfA 0 < 3/4 ∧
      (triggerScenarioA SCENARIO_NORMAL_A 0 (3/4) .failure true "t1" "t2"
        []).oracleCalls = 0) ∧
    ((3:ℚ)/4 ≤ genConfA (1/2) ∧
      (triggerScenarioA SCENARIO_NORMAL_A (1/2) (3/4) .failure true "t1" "t2"
        []).oracleCalls = 1) ∧
    (triggerScenarioB SCENARIO_NORMAL_A 0 .failure "t1" "t2" []).oracleCalls = 1 := by
  have h1 : genConfA 0 < 3/4 := by norm_num [genConfA]
  have h2 : (3:ℚ)/4 ≤ genConfA (1/2) := by norm_num [genConfA]
  exact ⟨⟨h1, ((confidence_gate_controls_oracle.1 SCENARIO_NORMAL_A 0 (3/4)
      .failure true "t1" "t2" []).1 h1).1⟩,
    ⟨h2, (confidence_gate_controls_oracle.1 SCENARIO_NORMAL_A (1/2) (3/4)
      .failure true "t1" "t2" []).2 h2⟩,
    (confidence_gate_controls_oracle.2 SCENARIO_NORMAL_A 0 .failure "t1" "t2"
      []).1⟩

/-- Claim C5 counterexample: a gate-blocked cycle (confidence 0.65 below
threshold 0.75) leaves the log exactly as it was — no LogEntry is appended,
contradicting the claim that gated cycles are logged like analyzed ones. -/
theorem gate_skip_appends_log_false :
    genConfA 0 < 3/4 ∧
    (triggerScenarioA SCENARIO_NORMAL_A 0 (3/4) .failure true "t1" "t2"
      []).logs = [] := by
  have h1 : genConfA 0 < 3/4 := by norm_num [genConfA]
  refine ⟨h1, ?_⟩
  simp only [triggerScenarioA]
  rw [if_neg (not_le.mpr h1)]

/-- Claim C5 amended: a cycle blocked by the confidence gate appends no
LogEntry at all — the log is left unchanged, the oracle is not invoked and no
beep is scheduled; only analyzed cycles append to the log. -/
theorem gate_skip_no_log_append (sc : ScenarioDef) (rand thr : ℚ)
    (o : OracleResult) (en : Bool) (t1 t2 : String) (prev : List LogEntry)
    (h : genConfA rand < thr) :
    (triggerScenarioA sc rand thr o en t1 t2 prev).logs = prev ∧
    (triggerScenarioA sc rand thr o en t1 t2 prev).oracleCalls = 0 ∧
    (triggerScenarioA sc rand thr o en t1 t2 prev).beeps = [] := by
  have hn : ¬ thr ≤ genConfA rand := not_le.mpr h
  simp only [triggerScenarioA]
  rw [if_neg hn]
  exact ⟨rfl, rfl, rfl⟩

/-- Witness for the amended C5 on a one-entry log. -/
theorem gate_skip_no_log_append_witness :
    genConfA 0 < 3/4 ∧
    (triggerScenarioA SCENARIO_NORMAL_A 0 (3/4) .failure true "t1" "t2"
      [⟨"old", "SAFE", "NORMAL", "s"⟩]).logs = [⟨"old", "SAFE", "NORMAL", "s"⟩] := by
  have h1 : genConfA 0 < 3/4 := by norm_num [genConfA]
  exact ⟨h1, (gate_skip_no_log_append SCENARIO_NORMAL_A 0 (3/4) .failure true
    "t1" "t2" [⟨"old", "SAFE", "NORMAL", "s"⟩] h1).1⟩

/-- Claim C6 counterexample: in a gate-blocked cycle at threshold 0.75 the
synthesized summary states the measured confidence ("65%"; the generator
0.65 + rand * 0.35 cannot even produce 0.60) but never the numeric
threshold — "75%" does not occur in it. -/
theorem gate_summary_threshold_false :
    genConfA 0 < 3/4 ∧
    (triggerScenarioA SCENARIO_NORMAL_A 0 (3/4) .failure true "t1" "t2"
      []).report.summary = gateSkipSummary (genConfA 0) ∧
    containsSub (gateSkipSummary (genConfA 0)) "65%" = true ∧
    containsSub (gateSkipSummary (genConfA 0)) "75%" = false := by
  have h1 : genConfA 0 < 3/4 := by norm_num [genConfA]
  have hf : jsToFixed0 (genConfA 0 * 100) = 65 := by
    rw [jsToFixed0, if_pos (by norm_num [genConfA])]
    norm_num [genConfA]
  refine ⟨h1, ?_, ?_, ?_⟩
  · simp only [triggerScenarioA]
    rw [if_neg (not_le.mpr h1)]
    rfl
  · rw [gateSkipSummary, fmt0, hf]
    decide
  · rw [gateSkipSummary, fmt0, hf]
    decide

/-- Claim C6 amended: every gate-blocked cycle yields a SAFE report whose
summary is the gate-skip text containing the measured confidence percentage;
the summary refers to the gate threshold only in words, without its numeric
value. -/
theorem gate_summary_confidence_only (sc : ScenarioDef) (rand thr : ℚ)
    (o : OracleResult) (en : Bool) (t1 t2 : String) (prev : List LogEntry)
    (h : genConfA rand < thr) :
    (triggerScenarioA sc rand thr o en t1 t2 prev).report.status = "SAFE" ∧
    (triggerScenarioA sc rand thr o en t1 t2 prev).report.summary =
      gateSkipSummary (genConfA rand) ∧
    containsSub (gateSkipSummary (genConfA rand))
      (fmt0 (genConfA rand * 100) ++ "%") = true := by
  have hn : ¬ thr ≤ genConfA rand := not_le.mpr h
  refine ⟨?_, ?_, ?_⟩
  · simp only [triggerScenarioA]
    rw [if_neg hn]
    rfl
  · simp only [triggerScenarioA]
    rw [if_neg hn]
    rfl
  · have hsplit : ("%) below gate threshold. AI check skipped." : String) =
        "%" ++ ") below gate threshold. AI check skipped." := rfl
    rw [gateSkipSummary, hsplit, String.append_assoc,
      ← String.append_assoc (fmt0 (genConfA rand * 100))]
    exact containsSub_of_decomp _ _ _

/-- Witness for the amended C6 at confidence 0.65, threshold 0.75. -/
theorem gate_summary_confidence_only_witness :
    genConfA 0 < 3/4 ∧
    (triggerScenarioA SCENARIO_NORMAL_A 0 (3/4) .failure true "t1" "t2"
      []).report.status = "SAFE" ∧
    containsSub (gateSkipSummary (genConfA 0))
      (fmt0 (genConfA 0 * 100) ++ "%") = true := by
  have h1 : genConfA 0 < 3/4 := by norm_num [genConfA]
  have h := gate_summary_confidence_only SCENARIO_NORMAL_A 0 (3/4) .failure
    true "t1" "t2" [] h1
  exact ⟨h1, h.1, h.2.2⟩

theorem csvScan_escField (s : List Char) (rest cur : List Char)
    (flds : List (List Char)) (rows : List (List (List Char))) :
    csvScanAux (escField s ++ rest) .inF cur flds rows =
      csvScanAux rest .inF (cur ++ s) flds rows := by
  induction s generalizing cur with
  | nil => simp [escField]
  | cons c cs ih =>
    by_cases hc : c = '"'
    · subst hc
      simp [escField, csvScanAux, ih, List.append_assoc]
    · simp [escField, csvScanAux, hc, ih, List.append_assoc]

theorem csvScan_field_comma (s : String) (rest : List Char)
    (flds : List (List Char)) (rows : List (List (List Char))) :
    csvScanAux (fieldChars s ++ ',' :: rest) .expectQ [] flds rows =
      csvScanAux rest .expectQ [] (flds ++ [s.toList]) rows := by
  have h1 : fieldChars s ++ ',' :: rest =
      '"' :: (escField s.toList ++ ('"' :: ',' :: rest)) := by
    simp [fieldChars, List.append_assoc]
  rw [h1]
  simp only [csvScanAux, if_pos rfl]
  rw [csvScan_escField]
  simp [csvScanAux]

theorem csvScan_field_newline (s : String) (rest : List Char)
    (flds : List (List Char)) (rows : List (List (List Char))) :
    csvScanAux (fieldChars s ++ '\n' :: rest) .expectQ [] flds rows =
      csvScanAux rest .expectQ [] [] (rows ++ [flds ++ [s.toList]]) := by
  have h1 : fieldChars s ++ '\n' :: rest =
      '"' :: (escField s.toList ++ ('"' :: '\n' :: rest)) := by
    simp [fieldChars, List.append_assoc]
  rw [h1]
  simp only [csvScanAux, if_pos rfl]
  rw [csvScan_escField]
  simp [csvScanAux]

theorem csvScan_field_end (s : String)
    (flds : List (List Char)) (rows : List (List (List Char))) :
    csvScanAux (fieldChars s) .expectQ [] flds rows =
      some (rows ++ [flds ++ [s.toList]]) := by
  have h1 : fieldChars s = '"' :: (escField s.toList ++ ['"']) := rfl
  rw [h1]
  simp only [csvScanAux, if_pos rfl]
  rw [csvScan_escField]
  simp [csvScanAux]

theorem csvScan_row_newline (f : String) (fs : List String) (rest : List Char)
    (flds : List (List Char)) (rows : List (List (List Char))) :
    csvScanAux (rowChars (f :: fs) ++ '\n' :: rest) .expectQ [] flds rows =
      csvScanAux rest .expectQ [] []
        (rows ++ [flds ++ (f :: fs).map String.toList]) := by
  induction fs generalizing f flds with
  | nil =>
    simp only [rowChars, List.map]
    exact csvScan_field_newline f rest flds rows
  | cons f2 fs ih =>
    have h1 : rowChars (f :: f2 :: fs) ++ '\n' :: rest =
        fieldChars f ++ ',' :: (rowChars (f2 :: fs) ++ '\n' :: rest) := by
      simp [rowChars, List.append_assoc]
    rw [h1, csvScan_field_comma, ih]
    simp [List.append_assoc]

theorem csvScan_row_end (f : String) (fs : List String)
    (flds : List (List Char)) (rows : List (List (List Char))) :
    csvScanAux (rowChars (f :: fs)) .expectQ [] flds rows =
      some (rows ++ [flds ++ (f :: fs).map String.toList]) := by
  induction fs generalizing f flds with
  | nil =>
    simp only [rowChars, List.map]
    exact csvScan_field_end f flds rows
  | cons f2 fs ih =>
    have h1 : rowChars (f :: f2 :: fs) =
        fieldChars f ++ ',' :: rowChars (f2 :: fs) := rfl
    rw [h1, csvScan_field_comma, ih]
    simp [List.append_assoc]

theorem csvScan_csv (r : List String) (rs : List (List String))
    (rows : List (List (List Char))) (hr : r ≠ [])
    (hrs : ∀ x ∈ rs, x ≠ []) :
    csvScanAux (csvChars (r :: rs)) .expectQ [] [] rows =
      some (rows ++ (r :: rs).map (List.map String.toList)) := by
  induction rs generalizing r rows with
  | nil =>
    obtain ⟨f, fs, rfl⟩ := List.exists_cons_of_ne_nil hr
    simp only [csvChars]
    rw [csvScan_row_end]
    simp
  | cons r2 rs ih =>
    obtain ⟨f, fs, rfl⟩ := List.exists_cons_of_ne_nil hr
    have h1 : csvChars ((f :: fs) :: r2 :: rs) =
        rowChars (f :: fs) ++ '\n' :: csvChars (r2 :: rs) := rfl
    rw [h1, csvScan_row_newline]
    simp only [List.nil_append]
    rw [ih r2 (rows ++ [(f :: fs).map String.toList]) (hrs r2 (by simp))
      (fun x hx => hrs x (by simp [hx]))]
    simp [List.append_assoc]

theorem mk_toList (s : String) : String.mk s.toList = s := rfl

theorem map_mk_map_toList (L : List (List String)) :
    (L.map (List.map String.toList)).map
      (fun flds => flds.map (fun cs => String.mk cs)) = L := by
  induction L with
  | nil => rfl
  | cons r L ih =>
    simp only [List.map_cons, List.cons.injEq]
    refine ⟨?_, ih⟩
    simp only [List.map_map]
    have h : ((fun cs => String.mk cs) ∘ String.toList) = id := by
      funext s
      exact mk_toList s
    rw [h, List.map_id]

/-- Claim C9 (`exportLog` modelled from the spec; no CSV export exists under
src/): the export consists of the header row Timestamp, ML State,
AI Assessment, Sensor Snapshot followed by one double-quoted comma-separated
row per LogEntry with internal quotes doubled, and for every log state
parsing the export back recovers the header plus exactly the stored entries'
fields — the same number of data rows as the store holds, with
quote-escaping reversed. -/
theorem csv_export_roundtrip (logs : List LogEntry) :
    parseCsv (exportLog logs) = some (headerFields :: logs.map entryFields) ∧
    (parseCsv (exportLog logs)).map List.length = some (logs.length + 1) := by
  have key : csvScanAux (csvChars (headerFields :: logs.map entryFields))
      .expectQ [] [] [] =
      some ((headerFields :: logs.map entryFields).map
        (List.map String.toList)) := by
    have h := csvScan_csv headerFields (logs.map entryFields) []
      (by simp [headerFields])
      (by
        intro x hx
        simp only [List.mem_map] at hx
        obtain ⟨e, _, rfl⟩ := hx
        simp [entryFields])
    simpa using h
  have hmain : parseCsv (exportLog logs) =
      some (headerFields :: logs.map entryFields) := by
    have htl : (exportLog logs).toList =
        csvChars (headerFields :: logs.map entryFields) := rfl
    rw [parseCsv, htl, key]
    exact congrArg some (map_mk_map_toList _)
  refine ⟨hmain, ?_⟩
  rw [hmain]
  simp

/-- Witness for C8: the first DANGER beep of variant A is in the claimed
band, and a disabled flag silences dispatch. -/
theorem alert_patterns_witness :
    850 ≤ (⟨880, 1/5, ((0 : Nat) : ℚ) * (1/4)⟩ : Beep).freq ∧
    playAlertSoundA false "SAFE" = [] := by
  have hmem : (⟨880, 1/5, ((0 : Nat) : ℚ) * (1/4)⟩ : Beep) ∈
      playAlertSoundA true "DANGER" := by
    simp [playAlertSoundA, List.range_succ]
  exact ⟨(alert_patterns.2.2.1.2.1 _ hmem).1, alert_patterns.1 "SAFE"⟩
